import Mathlib

/-!
Shallow embedding of the session/broadcast coordinator of `src/server/app.py`
(the ip-chat server).  The Python module keeps two pieces of global mutable
state, the `clients` dict (session registry) and the `chat_history` list
(bounded history buffer), and four Socket.IO event handlers (`connect`,
`disconnect`, `chat_message`, `set_username`) that mutate this state and emit
outbound events.  Here each handler is a pure function from the server state
(plus the environment readings the handler performs: the formatted wall-clock
`timestamp` string and the millisecond integer `time_ms`; one reading per
handler invocation) to the new state together with the ordered list of
emissions the handler issues.

The Python dict `clients` is embedded as an association list with unique keys;
`clients[sid] = v` is `upsert` (in-place update of an existing key, append of
a new one, matching insertion-order-preserving dict semantics) and
`del clients[sid]` is `eraseKey`.
-/

namespace IpChat

/-- `MAX_HISTORY = 100`: maximum number of messages kept in history. -/
def MAX_HISTORY : Nat := 100

/-- `MAX_HISTORY_TO_SEND = 20`: maximum number of messages replayed to new clients. -/
def MAX_HISTORY_TO_SEND : Nat := 20

/-- One entry of the `clients` dict: `{'username': ..., 'connected_at': ..., 'ip': ...}`.
`connected_at` stores the clock reading at creation (held at millisecond precision
here; the handlers never read this field back). -/
structure Session where
  username : String
  connected_at : Nat
  ip : String
  deriving DecidableEq

/-- The environment readings a handler performs: `datetime.now().strftime("%H:%M:%S")`
and `int(time.time() * 1000)`. -/
structure Env where
  timestamp : String
  time_ms : Nat
  deriving DecidableEq

/-- A message dict as built by the handlers.  `username` is present only on
`chat` messages and `clear` only (as `True`) on the per-client clear notice. -/
structure Msg where
  type : String
  text : String
  timestamp : String
  id : String
  username : Option String := none
  clear : Bool := false
  deriving DecidableEq

/-- Addressing of a `sio.emit` call: `room=sid`, plain broadcast, or
broadcast with `skip_sid=sid`. -/
inductive Target where
  | room (sid : String)
  | all
  | allExcept (sid : String)
  deriving DecidableEq

/-- The payload of an outbound event, one constructor per event name used by
the server: `message`, `user_list`, `username_changed`, `username_error`. -/
inductive Payload where
  | message (m : Msg)
  | user_list (users : List (String × String))
  | username_changed (username : String)
  | username_error (error : String)
  deriving DecidableEq

/-- One `sio.emit(...)` call: where it is addressed and what it carries. -/
structure Emission where
  target : Target
  payload : Payload
  deriving DecidableEq

/-- The sessions that actually receive an emission, given the list `conn` of
session ids whose transport connection is open at emission time. -/
def recipients (conn : List String) : Target → List String
  | Target.room sid => if sid ∈ conn then [sid] else []
  | Target.all => conn
  | Target.allExcept sid => conn.filter (fun s => s ≠ sid)

/-- The global mutable state of the server module: the `clients` dict and the
`chat_history` list. -/
structure ServerState where
  clients : List (String × Session)
  chat_history : List Msg
  deriving DecidableEq

/-- The state at module load: both structures empty. -/
def initState : ServerState := ⟨[], []⟩

/-- `clients[sid] = v`: update in place if the key is present (dicts keep the
original position of an updated key), otherwise append at the end. -/
def upsert (k : String) (v : Session) : List (String × Session) → List (String × Session)
  | [] => [(k, v)]
  | (k', v') :: rest => if k' = k then (k, v) :: rest else (k', v') :: upsert k v rest

/-- `del clients[sid]`: remove the (unique) entry with the given key. -/
def eraseKey (k : String) : List (String × Session) → List (String × Session)
  | [] => []
  | (k', v') :: rest => if k' = k then rest else (k', v') :: eraseKey k rest

/-- `clients[sid]` / `sid in clients` combined: the session stored under a key. -/
def lookupKey (k : String) : List (String × Session) → Option Session
  | [] => none
  | (k', v') :: rest => if k' = k then some v' else lookupKey k rest

/-- Python `str.strip()`: remove leading and trailing whitespace.  Modelled at
the character-list level so that the kernel can evaluate it on concrete
strings. -/
def strip (s : String) : String :=
  ⟨((s.data.dropWhile Char.isWhitespace).reverse.dropWhile Char.isWhitespace).reverse⟩

/-- Python `str.lower()`, applied character by character (the handlers only
compare the result against the ASCII string `"/clear"`). -/
def lower (s : String) : String := ⟨s.data.map Char.toLower⟩

/-- The default guest username: `f"Guest_{sid[:4]}"`. -/
def guestName (sid : String) : String := "Guest_" ++ sid.take 4

/-- The last `n` elements of a list, in order: Python `l[-n:]`. -/
def lastN (n : Nat) (l : List α) : List α := l.drop (l.length - n)

/-- `chat_history.append(msg)` followed by
`if len(chat_history) > MAX_HISTORY: chat_history.pop(0)`. -/
def appendHistory (h : List Msg) (msg : Msg) : List Msg :=
  if MAX_HISTORY < (h ++ [msg]).length then (h ++ [msg]).drop 1 else h ++ [msg]

/-- The `users` payload of `emit_user_list`:
`[{'id': sid, 'username': data['username']} for sid, data in clients.items()]`. -/
def user_list_users (clients : List (String × Session)) : List (String × String) :=
  clients.map (fun p => (p.1, p.2.username))

/-- `emit_user_list()`: broadcast the current user list to all clients. -/
def emit_user_list (clients : List (String × Session)) : Emission :=
  ⟨Target.all, Payload.user_list (user_list_users clients)⟩

/-- The `welcome_msg` dict built in `connect` (the username just stored for
`sid` is `guestName sid`). -/
def welcome_msg (sid : String) (env : Env) : Msg :=
  { type := "system"
    text := "Welcome to the chat, " ++ guestName sid ++ "! Type /clear to clear your chat history."
    timestamp := env.timestamp
    id := "welcome_" ++ sid ++ "_" ++ toString env.time_ms }

/-- The `history_notice` dict built in `connect`; `n` is `len(recent_history)`. -/
def history_notice (n : Nat) (sid : String) (env : Env) : Msg :=
  { type := "system"
    text := "Showing last " ++ toString n ++ " messages"
    timestamp := env.timestamp
    id := "history_notice_" ++ sid ++ "_" ++ toString env.time_ms }

/-- The `join_msg` dict built in `connect`. -/
def join_msg (sid : String) (env : Env) : Msg :=
  { type := "system"
    text := guestName sid ++ " has joined the chat"
    timestamp := env.timestamp
    id := "join_" ++ sid ++ "_" ++ toString env.time_ms }

/-- The `leave_msg` dict built in `disconnect`. -/
def leave_msg (username sid : String) (env : Env) : Msg :=
  { type := "system"
    text := username ++ " has left the chat"
    timestamp := env.timestamp
    id := "leave_" ++ sid ++ "_" ++ toString env.time_ms }

/-- The `clear_msg` dict built in `chat_message` for the `/clear` command. -/
def clear_msg (sid : String) (env : Env) : Msg :=
  { type := "system"
    text := "Chat history cleared for you"
    timestamp := env.timestamp
    clear := true
    id := "clear_" ++ sid ++ "_" ++ toString env.time_ms }

/-- The `msg` dict built in `chat_message` for an accepted chat message. -/
def chat_msg (username text sid : String) (env : Env) : Msg :=
  { type := "chat"
    username := some username
    text := text
    timestamp := env.timestamp
    id := "msg_" ++ toString env.time_ms ++ "_" ++ sid }

/-- The `change_msg` dict built in `set_username`. -/
def change_msg (old_username new_username sid : String) (env : Env) : Msg :=
  { type := "system"
    text := old_username ++ " changed their name to " ++ new_username
    timestamp := env.timestamp
    id := "rename_" ++ sid ++ "_" ++ toString env.time_ms }

/-- Handler `connect(sid, environ)`: register the session under its guest
name, send the welcome message to the new session, replay the last
`MAX_HISTORY_TO_SEND` history entries (preceded by a count notice) when
history is non-empty, notify everyone else of the join, and send the updated
user list to all. -/
def connect (st : ServerState) (sid client_ip : String) (env : Env) :
    ServerState × List Emission :=
  let clients := upsert sid ⟨guestName sid, env.time_ms, client_ip⟩ st.clients
  let recent_history := lastN MAX_HISTORY_TO_SEND st.chat_history
  ({ st with clients := clients },
    ⟨Target.room sid, Payload.message (welcome_msg sid env)⟩ ::
      ((if recent_history = [] then []
        else ⟨Target.room sid, Payload.message (history_notice recent_history.length sid env)⟩ ::
          recent_history.map (fun m => ⟨Target.room sid, Payload.message m⟩)) ++
       [⟨Target.allExcept sid, Payload.message (join_msg sid env)⟩,
        emit_user_list clients]))

/-- Handler `disconnect(sid)`: if the session is known, broadcast the leave
notice, delete the session, and broadcast the updated user list; otherwise do
nothing. -/
def disconnect (st : ServerState) (sid : String) (env : Env) :
    ServerState × List Emission :=
  match lookupKey sid st.clients with
  | none => (st, [])
  | some c =>
    let clients := eraseKey sid st.clients
    ({ st with clients := clients },
      [⟨Target.all, Payload.message (leave_msg c.username sid env)⟩,
       emit_user_list clients])

/-- Handler `chat_message(sid, data)`: drop the event if the session is
unknown or the stripped text is empty; answer `/clear` (case-insensitively)
with a private clear notice; otherwise append the message to history (bounded
by `MAX_HISTORY`) and broadcast it. -/
def chat_message (st : ServerState) (sid : String) (data : Option String) (env : Env) :
    ServerState × List Emission :=
  match lookupKey sid st.clients with
  | none => (st, [])
  | some c =>
    let text := strip (data.getD "")
    if text = "" then (st, [])
    else if lower text = "/clear" then
      (st, [⟨Target.room sid, Payload.message (clear_msg sid env)⟩])
    else
      let msg := chat_msg c.username text sid env
      ({ st with chat_history := appendHistory st.chat_history msg },
        [⟨Target.all, Payload.message msg⟩])

/-- Handler `set_username(sid, data)`: drop the event if the session is
unknown; reject (with a `username_error` to the requester) a stripped name
that is empty, longer than 20 characters, or equal to another active
session's username; otherwise update the username in place, broadcast the
change notice, confirm to the requester, and broadcast the updated user
list. -/
def set_username (st : ServerState) (sid : String) (data : Option String) (env : Env) :
    ServerState × List Emission :=
  match lookupKey sid st.clients with
  | none => (st, [])
  | some c =>
    let new_username := strip (data.getD "")
    if new_username = "" ∨ 20 < new_username.length ∨
        new_username ∈ (st.clients.filter (fun p => p.1 ≠ sid)).map (fun p => p.2.username) then
      (st, [⟨Target.room sid, Payload.username_error "Invalid username or already taken"⟩])
    else
      let clients := upsert sid { c with username := new_username } st.clients
      ({ st with clients := clients },
        [⟨Target.all, Payload.message (change_msg c.username new_username sid env)⟩,
         ⟨Target.room sid, Payload.username_changed new_username⟩,
         emit_user_list clients])

/-- An inbound transport event, paired at delivery time with the environment
readings the handler will perform. -/
inductive Event where
  | connect (sid client_ip : String)
  | disconnect (sid : String)
  | chat (sid : String) (text : Option String)
  | rename (sid : String) (name : Option String)
  deriving DecidableEq

/-- Dispatch one inbound event to its handler. -/
def step (st : ServerState) : Event × Env → ServerState × List Emission
  | (Event.connect sid ip, env) => connect st sid ip env
  | (Event.disconnect sid, env) => disconnect st sid env
  | (Event.chat sid d, env) => chat_message st sid d env
  | (Event.rename sid d, env) => set_username st sid d env

/-- Run a sequence of inbound events from a state, keeping only the state. -/
def run (st : ServerState) : List (Event × Env) → ServerState
  | [] => st
  | e :: es => run (step st e).1 es

/-- Whether an event is a connect or a disconnect (the two lifecycle events). -/
def isLifecycle : Event → Bool
  | Event.connect _ _ => true
  | Event.disconnect _ => true
  | _ => false

/-- The session ids of the connect events of a sequence, in order. -/
def connectSids : List (Event × Env) → List String
  | [] => []
  | (Event.connect sid _, _) :: es => sid :: connectSids es
  | _ :: es => connectSids es

/-! ## Generic lemmas about the embedded operations -/

theorem length_appendHistory_le (h : List Msg) (m : Msg) (hl : h.length ≤ MAX_HISTORY) :
    (appendHistory h m).length ≤ MAX_HISTORY := by
  unfold appendHistory
  split
  · simp only [List.length_drop, List.length_append, List.length_cons, List.length_nil]
    omega
  · simp only [List.length_append, List.length_cons, List.length_nil] at *
    omega

theorem connect_history (st : ServerState) (sid ip : String) (env : Env) :
    (connect st sid ip env).1.chat_history = st.chat_history := rfl

theorem disconnect_history (st : ServerState) (sid : String) (env : Env) :
    (disconnect st sid env).1.chat_history = st.chat_history := by
  unfold disconnect
  cases lookupKey sid st.clients <;> rfl

theorem set_username_history (st : ServerState) (sid : String) (d : Option String) (env : Env) :
    (set_username st sid d env).1.chat_history = st.chat_history := by
  unfold set_username
  cases lookupKey sid st.clients with
  | none => rfl
  | some c =>
    dsimp only
    split <;> rfl

theorem chat_message_history_le (st : ServerState) (sid : String) (d : Option String) (env : Env)
    (hl : st.chat_history.length ≤ MAX_HISTORY) :
    (chat_message st sid d env).1.chat_history.length ≤ MAX_HISTORY := by
  unfold chat_message
  cases lookupKey sid st.clients with
  | none => exact hl
  | some c =>
    dsimp only
    split
    · exact hl
    · split
      · exact hl
      · exact length_appendHistory_le _ _ hl

theorem step_history_le (st : ServerState) (e : Event × Env)
    (hl : st.chat_history.length ≤ MAX_HISTORY) :
    (step st e).1.chat_history.length ≤ MAX_HISTORY := by
  obtain ⟨ev, env⟩ := e
  cases ev with
  | connect sid ip => rw [step, connect_history]; exact hl
  | disconnect sid => rw [step, disconnect_history]; exact hl
  | chat sid d => exact chat_message_history_le st sid d env hl
  | rename sid d => rw [step, set_username_history]; exact hl

theorem run_history_le (es : List (Event × Env)) (st : ServerState)
    (hl : st.chat_history.length ≤ MAX_HISTORY) :
    (run st es).chat_history.length ≤ MAX_HISTORY := by
  induction es generalizing st with
  | nil => exact hl
  | cons e es ih => exact ih _ (step_history_le st e hl)

theorem length_lastN (n : Nat) (l : List α) : (lastN n l).length = min l.length n := by
  simp only [lastN, List.length_drop]
  omega

theorem lastN_eq_nil_iff (n : Nat) (l : List α) (hn : 0 < n) : lastN n l = [] ↔ l = [] := by
  rw [lastN, List.drop_eq_nil_iff, ← List.length_eq_zero]
  omega

theorem lastN_suffix (n : Nat) (l : List α) : lastN n l <:+ l := List.drop_suffix _ _

theorem mem_upsert (p : String × Session) (k : String) (v : Session)
    (l : List (String × Session)) (h : p ∈ upsert k v l) : p = (k, v) ∨ p ∈ l := by
  induction l with
  | nil => simpa [upsert] using h
  | cons q rest ih =>
    obtain ⟨k', v'⟩ := q
    by_cases hk : k' = k
    · simp only [upsert, if_pos hk, List.mem_cons] at h
      rcases h with h | h
      · exact Or.inl h
      · exact Or.inr (List.mem_cons_of_mem _ h)
    · simp only [upsert, if_neg hk, List.mem_cons] at h
      rcases h with h | h
      · exact Or.inr (by simp [h])
      · rcases ih h with h' | h'
        · exact Or.inl h'
        · exact Or.inr (List.mem_cons_of_mem _ h')

theorem keys_upsert (k : String) (v : Session) (l : List (String × Session)) :
    (upsert k v l).map Prod.fst =
      if k ∈ l.map Prod.fst then l.map Prod.fst else l.map Prod.fst ++ [k] := by
  induction l with
  | nil => simp [upsert]
  | cons q rest ih =>
    obtain ⟨k', v'⟩ := q
    by_cases hk : k' = k
    · subst hk
      simp [upsert]
    · simp only [upsert, if_neg hk, List.map_cons, ih]
      by_cases hmem : k ∈ rest.map Prod.fst
      · simp [hmem, Ne.symm hk]
      · simp [hmem, Ne.symm hk]

theorem nodup_keys_upsert (k : String) (v : Session) (l : List (String × Session))
    (h : (l.map Prod.fst).Nodup) : ((upsert k v l).map Prod.fst).Nodup := by
  rw [keys_upsert]
  split
  · exact h
  · rename_i hnot
    refine List.Nodup.append h (by simp) ?_
    intro a ha hak
    simp only [List.mem_singleton] at hak
    subst hak
    exact hnot ha

theorem lookupKey_upsert_self (k : String) (v : Session) (l : List (String × Session)) :
    lookupKey k (upsert k v l) = some v := by
  induction l with
  | nil => simp [upsert, lookupKey]
  | cons q rest ih =>
    obtain ⟨k', v'⟩ := q
    by_cases hk : k' = k
    · simp [upsert, lookupKey, hk]
    · simp [upsert, lookupKey, hk, ih]

theorem lookupKey_upsert_ne (s : String) (v : Session) (l : List (String × Session))
    (k : String) (hk : k ≠ s) : lookupKey k (upsert s v l) = lookupKey k l := by
  induction l with
  | nil => simp [upsert, lookupKey, Ne.symm hk]
  | cons q rest ih =>
    obtain ⟨k', v'⟩ := q
    by_cases hks : k' = s
    · subst hks
      simp [upsert, lookupKey, Ne.symm hk]
    · simp only [upsert, if_neg hks]
      by_cases hkk : k' = k
      · simp [lookupKey, hkk]
      · simp [lookupKey, hkk, ih]

theorem upsert_lookup_self (k : String) (v : Session) (l : List (String × Session))
    (h : lookupKey k l = some v) : upsert k v l = l := by
  induction l with
  | nil => simp [lookupKey] at h
  | cons q rest ih =>
    obtain ⟨k', v'⟩ := q
    by_cases hk : k' = k
    · subst hk
      simp only [lookupKey, if_true, Option.some.injEq, eq_self_iff_true] at h
      cases h
      simp [upsert]
    · simp only [lookupKey, if_neg hk] at h
      simp [upsert, hk, ih h]

theorem eraseKey_sublist (k : String) (l : List (String × Session)) :
    List.Sublist (eraseKey k l) l := by
  induction l with
  | nil => simp [eraseKey]
  | cons q rest ih =>
    obtain ⟨k', v'⟩ := q
    by_cases hk : k' = k
    · simp only [eraseKey, if_pos hk]
      exact List.sublist_cons_self _ _
    · simp only [eraseKey, if_neg hk]
      exact ih.cons₂ _

theorem disconnect_clients (st : ServerState) (sid : String) (env : Env) :
    (disconnect st sid env).1.clients = st.clients ∨
    (disconnect st sid env).1.clients = eraseKey sid st.clients := by
  unfold disconnect
  cases lookupKey sid st.clients
  · exact Or.inl rfl
  · exact Or.inr rfl

theorem string_append_left_cancel {s t u : String} (h : s ++ t = s ++ u) : t = u := by
  obtain ⟨sd⟩ := s
  obtain ⟨td⟩ := t
  obtain ⟨ud⟩ := u
  have hd : sd ++ td = sd ++ ud := congrArg String.data h
  exact congrArg String.mk (List.append_cancel_left hd)

theorem guestName_inj {s1 s2 : String} (h : guestName s1 = guestName s2) :
    s1.take 4 = s2.take 4 :=
  string_append_left_cancel h

/-- The registry invariant maintained by connect/disconnect-only event
sequences: keys are distinct and every session still carries its default
guest username, for a session id drawn from `S`. -/
theorem run_lifecycle_inv (es : List (Event × Env)) (st : ServerState) (S : List String)
    (hnd : (st.clients.map Prod.fst).Nodup)
    (hin : ∀ p ∈ st.clients, p.2.username = guestName p.1 ∧ p.1 ∈ S)
    (hcd : ∀ p ∈ es, isLifecycle p.1 = true)
    (hsub : ∀ s ∈ connectSids es, s ∈ S) :
    ((run st es).clients.map Prod.fst).Nodup ∧
    ∀ p ∈ (run st es).clients, p.2.username = guestName p.1 ∧ p.1 ∈ S := by
  induction es generalizing st with
  | nil => exact ⟨hnd, hin⟩
  | cons e es ih =>
    obtain ⟨ev, env⟩ := e
    have hcd' : ∀ p ∈ es, isLifecycle p.1 = true :=
      fun p hp => hcd p (List.mem_cons_of_mem _ hp)
    cases ev with
    | connect sid ip =>
      have hsub' : ∀ s ∈ connectSids es, s ∈ S := by
        intro s hs
        exact hsub s (by simp [connectSids, hs])
      refine ih _ (nodup_keys_upsert _ _ _ hnd) ?_ hcd' hsub'
      intro p hp
      rcases mem_upsert p _ _ _ hp with h | h
      · subst h
        exact ⟨rfl, hsub sid (by simp [connectSids])⟩
      · exact hin p h
    | disconnect sid =>
      have hsub' : ∀ s ∈ connectSids es, s ∈ S := by
        intro s hs
        exact hsub s (by simp [connectSids, hs])
      show ((run (disconnect st sid env).1 es).clients.map Prod.fst).Nodup ∧
        ∀ p ∈ (run (disconnect st sid env).1 es).clients,
          p.2.username = guestName p.1 ∧ p.1 ∈ S
      rcases disconnect_clients st sid env with hcl | hcl
      · refine ih _ ?_ ?_ hcd' hsub'
        · rw [hcl]
          exact hnd
        · intro p hp
          rw [hcl] at hp
          exact hin p hp
      · refine ih _ ?_ ?_ hcd' hsub'
        · rw [hcl]
          exact List.Nodup.sublist
            (List.Sublist.map Prod.fst (eraseKey_sublist sid st.clients)) hnd
        · intro p hp
          rw [hcl] at hp
          exact hin p ((eraseKey_sublist sid st.clients).subset hp)
    | chat sid d =>
      have := hcd _ (List.mem_cons_self _ _)
      simp [isLifecycle] at this
    | rename sid d =>
      have := hcd _ (List.mem_cons_self _ _)
      simp [isLifecycle] at this

/-! ## Claim theorems -/

/-- C1: over any sequence of inbound events the History Buffer never exceeds
`MAX_HISTORY = 100` entries, and appending a chat message to a buffer that
already holds 100 entries evicts exactly the oldest entry, leaving the most
recent 100 messages in insertion order. -/
theorem history_capacity (es : List (Event × Env)) (h : List Msg) (m : Msg)
    (hm : h.length = MAX_HISTORY) :
    (run initState es).chat_history.length ≤ MAX_HISTORY ∧
    appendHistory h m = h.drop 1 ++ [m] ∧
    (appendHistory h m).length = MAX_HISTORY ∧
    appendHistory h m = lastN MAX_HISTORY (h ++ [m]) := by
  have h100 : MAX_HISTORY = 100 := rfl
  have hcond : MAX_HISTORY < (h ++ [m]).length := by
    simp only [List.length_append, List.length_cons, List.length_nil]
    omega
  have happ : appendHistory h m = (h ++ [m]).drop 1 := by
    unfold appendHistory
    rw [if_pos hcond]
  refine ⟨run_history_le es initState (by simp [initState]), ?_, ?_, ?_⟩
  · rw [happ, List.drop_append_of_le_length (by omega)]
  · rw [happ, List.length_drop]
    simp only [List.length_append, List.length_cons, List.length_nil]
    omega
  · rw [happ, lastN]
    congr 1
    simp only [List.length_append, List.length_cons, List.length_nil]
    omega

/-- Witness for C1 at the empty event sequence and a concrete buffer of
exactly 100 messages. -/
theorem history_capacity_witness :
    (List.replicate MAX_HISTORY (welcome_msg "a" ⟨"t", 0⟩)).length = MAX_HISTORY ∧
    ((run initState []).chat_history.length ≤ MAX_HISTORY ∧
     appendHistory (List.replicate MAX_HISTORY (welcome_msg "a" ⟨"t", 0⟩)) (join_msg "b" ⟨"t", 1⟩) =
       (List.replicate MAX_HISTORY (welcome_msg "a" ⟨"t", 0⟩)).drop 1 ++ [join_msg "b" ⟨"t", 1⟩] ∧
     (appendHistory (List.replicate MAX_HISTORY (welcome_msg "a" ⟨"t", 0⟩))
        (join_msg "b" ⟨"t", 1⟩)).length = MAX_HISTORY ∧
     appendHistory (List.replicate MAX_HISTORY (welcome_msg "a" ⟨"t", 0⟩)) (join_msg "b" ⟨"t", 1⟩) =
       lastN MAX_HISTORY (List.replicate MAX_HISTORY (welcome_msg "a" ⟨"t", 0⟩) ++
         [join_msg "b" ⟨"t", 1⟩])) :=
  ⟨by simp, history_capacity [] _ _ (by simp)⟩

/-- C2 counterexample: two connects with fresh, distinct session ids that
share their first four characters leave the registry with two concurrently
active sessions carrying the same default guest username. -/
theorem guest_username_collision :
    (run initState [(Event.connect "aaaa1" "ip1", ⟨"00:00:00", 0⟩),
        (Event.connect "aaaa2" "ip2", ⟨"00:00:00", 1⟩)]).clients.map
      (fun p => p.2.username) = ["Guest_aaaa", "Guest_aaaa"] ∧
    ¬ ((run initState [(Event.connect "aaaa1" "ip1", ⟨"00:00:00", 0⟩),
        (Event.connect "aaaa2" "ip2", ⟨"00:00:00", 1⟩)]).clients.map
      (fun p => p.2.username)).Nodup := by
  constructor
  · rfl
  · decide

/-- C2 (amended): for every sequence of connect and disconnect events whose
connect-time session ids have pairwise-distinct first-four-character
prefixes, the registry never holds two sessions with identical current
usernames. -/
theorem usernames_distinct (es : List (Event × Env))
    (hcd : ∀ p ∈ es, isLifecycle p.1 = true)
    (hinj : ∀ s1 ∈ connectSids es, ∀ s2 ∈ connectSids es,
      s1.take 4 = s2.take 4 → s1 = s2) :
    ((run initState es).clients.map (fun p => p.2.username)).Nodup := by
  obtain ⟨hnd, hin⟩ := run_lifecycle_inv es initState (connectSids es)
    (by simp [initState]) (by simp [initState]) hcd (fun s hs => hs)
  have hmap : (run initState es).clients.map (fun p => p.2.username) =
      ((run initState es).clients.map Prod.fst).map guestName := by
    rw [List.map_map]
    exact List.map_congr_left (fun p hp => (hin p hp).1)
  rw [hmap]
  refine List.Nodup.map_on ?_ hnd
  intro x hx y hy hxy
  obtain ⟨p, hp, rfl⟩ := List.mem_map.1 hx
  obtain ⟨q, hq, rfl⟩ := List.mem_map.1 hy
  exact hinj p.1 (hin p hp).2 q.1 (hin q hq).2 (guestName_inj hxy)

/-- Witness for C2 (amended) on a concrete two-connect, one-disconnect
sequence with distinct four-character id starts. -/
theorem usernames_distinct_witness :
    (∀ p ∈ [((Event.connect "abcd" "ip1", (⟨"00:00:00", 0⟩ : Env))),
        ((Event.connect "wxyz" "ip2", (⟨"00:00:01", 5⟩ : Env))),
        ((Event.disconnect "abcd", (⟨"00:00:02", 9⟩ : Env)))], isLifecycle p.1 = true) ∧
    ((run initState [((Event.connect "abcd" "ip1", (⟨"00:00:00", 0⟩ : Env))),
        ((Event.connect "wxyz" "ip2", (⟨"00:00:01", 5⟩ : Env))),
        ((Event.disconnect "abcd", (⟨"00:00:02", 9⟩ : Env)))]).clients.map
      (fun p => p.2.username)).Nodup :=
  ⟨by decide, usernames_distinct _ (by decide) (by decide)⟩

theorem recipients_room_eq (conn : List String) (sid r : String)
    (hr : r ∈ recipients conn (Target.room sid)) : r = sid := by
  simp only [recipients] at hr
  by_cases h : sid ∈ conn
  · rw [if_pos h] at hr
    simpa using hr
  · rw [if_neg h] at hr
    simp at hr

/-- C3: the connect handler emits, in order: a system welcome to the new
session only; if and only if history is non-empty, a system count notice
(counting `min (length history) 20` messages) followed by the last
`min (length history) 20` stored messages in chronological order (a suffix of
the buffer), all to the new session only; a system joined notice to every
connected session except the new one; and finally the updated user list to
all sessions (the new one included). -/
theorem connect_emissions (st : ServerState) (sid ip : String) (env : Env) :
    (connect st sid ip env).2 =
      ⟨Target.room sid, Payload.message (welcome_msg sid env)⟩ ::
        ((if st.chat_history = [] then []
          else ⟨Target.room sid, Payload.message
              (history_notice (min st.chat_history.length MAX_HISTORY_TO_SEND) sid env)⟩ ::
            (lastN MAX_HISTORY_TO_SEND st.chat_history).map
              (fun m => ⟨Target.room sid, Payload.message m⟩)) ++
         [⟨Target.allExcept sid, Payload.message (join_msg sid env)⟩,
          ⟨Target.all, Payload.user_list (user_list_users (connect st sid ip env).1.clients)⟩]) ∧
    (welcome_msg sid env).type = "system" ∧
    (history_notice (min st.chat_history.length MAX_HISTORY_TO_SEND) sid env).type = "system" ∧
    (join_msg sid env).type = "system" ∧
    (lastN MAX_HISTORY_TO_SEND st.chat_history).length =
      min st.chat_history.length MAX_HISTORY_TO_SEND ∧
    (lastN MAX_HISTORY_TO_SEND st.chat_history) <:+ st.chat_history ∧
    (∀ conn : List String, sid ∉ recipients conn (Target.allExcept sid) ∧
      ∀ r ∈ conn, r ≠ sid → r ∈ recipients conn (Target.allExcept sid)) ∧
    (∀ conn : List String, recipients conn Target.all = conn ∧
      (sid ∈ conn → sid ∈ recipients conn (Target.room sid))) := by
  have hlen := length_lastN MAX_HISTORY_TO_SEND st.chat_history
  refine ⟨?_, rfl, rfl, rfl, hlen, lastN_suffix _ _, ?_, ?_⟩
  · by_cases hh : st.chat_history = []
    · simp only [connect]
      rw [hh]
      rfl
    · have hrec : ¬ lastN MAX_HISTORY_TO_SEND st.chat_history = [] := by
        rw [lastN_eq_nil_iff _ _ (by decide)]
        exact hh
      simp only [connect]
      rw [if_neg hrec, if_neg hh, ← hlen]
      rfl
  · intro conn
    constructor
    · simp [recipients]
    · intro r hr hne
      simp [recipients, hr, hne]
  · intro conn
    exact ⟨rfl, fun hc => by simp [recipients, hc]⟩

/-- Witness for C3: at a concrete connect and a concrete two-session
connection set, the other session receives the join notice, the new session
does not, and the new session is reached by the user-list broadcast and its
own room. -/
theorem connect_emissions_witness :
    ("wxyz" ∈ ["abcd", "wxyz"] ∧ ("wxyz" : String) ≠ "abcd" ∧ "abcd" ∈ ["abcd", "wxyz"]) ∧
    "wxyz" ∈ recipients ["abcd", "wxyz"] (Target.allExcept "abcd") ∧
    "abcd" ∉ recipients ["abcd", "wxyz"] (Target.allExcept "abcd") ∧
    recipients ["abcd", "wxyz"] Target.all = ["abcd", "wxyz"] ∧
    "abcd" ∈ recipients ["abcd", "wxyz"] (Target.room "abcd") := by
  have h := connect_emissions initState "abcd" "ip" ⟨"09:00:00", 0⟩
  refine ⟨⟨by decide, by decide, by decide⟩, ?_, ?_, ?_, ?_⟩
  · exact (h.2.2.2.2.2.2.1 ["abcd", "wxyz"]).2 "wxyz" (by decide) (by decide)
  · exact (h.2.2.2.2.2.2.1 ["abcd", "wxyz"]).1
  · exact (h.2.2.2.2.2.2.2 ["abcd", "wxyz"]).1
  · exact (h.2.2.2.2.2.2.2 ["abcd", "wxyz"]).2 (by decide)

/-- C4: for a known session whose stripped text case-insensitively equals
"/clear", the handler leaves the whole server state (history buffer and
registry) unchanged and emits, to the requesting session's room only, a
single system message with `clear = true` and text "Chat history cleared for
you"; no event is addressed to any other session. -/
theorem clear_is_local (st : ServerState) (sid : String) (c : Session)
    (data : Option String) (env : Env)
    (hc : lookupKey sid st.clients = some c)
    (ht : lower (strip (data.getD "")) = "/clear") :
    (chat_message st sid data env).1 = st ∧
    (chat_message st sid data env).2 =
      [⟨Target.room sid, Payload.message (clear_msg sid env)⟩] ∧
    (clear_msg sid env).type = "system" ∧
    (clear_msg sid env).clear = true ∧
    (clear_msg sid env).text = "Chat history cleared for you" ∧
    ∀ conn : List String, ∀ r ∈ recipients conn (Target.room sid), r = sid := by
  have hne : ¬ strip (data.getD "") = "" := by
    intro h0
    rw [h0] at ht
    exact absurd ht (by decide)
  simp only [chat_message, hc]
  rw [if_neg hne, if_pos ht]
  exact ⟨rfl, rfl, rfl, rfl, rfl, fun conn r hr => recipients_room_eq conn sid r hr⟩

/-- Witness for C4 at a concrete state and the raw text "  /CLEAR  ". -/
theorem clear_is_local_witness :
    lookupKey "abcd" (run initState [(Event.connect "abcd" "ip", ⟨"10:00:00", 1000⟩)]).clients =
      some ⟨"Guest_abcd", 1000, "ip"⟩ ∧
    lower (strip ((some "  /CLEAR  ").getD "")) = "/clear" ∧
    (chat_message (run initState [(Event.connect "abcd" "ip", ⟨"10:00:00", 1000⟩)])
        "abcd" (some "  /CLEAR  ") ⟨"10:00:01", 2000⟩).1 =
      run initState [(Event.connect "abcd" "ip", ⟨"10:00:00", 1000⟩)] ∧
    (chat_message (run initState [(Event.connect "abcd" "ip", ⟨"10:00:00", 1000⟩)])
        "abcd" (some "  /CLEAR  ") ⟨"10:00:01", 2000⟩).2 =
      [⟨Target.room "abcd", Payload.message (clear_msg "abcd" ⟨"10:00:01", 2000⟩)⟩] := by
  have h := clear_is_local (run initState [(Event.connect "abcd" "ip", ⟨"10:00:00", 1000⟩)])
    "abcd" ⟨"Guest_abcd", 1000, "ip"⟩ (some "  /CLEAR  ") ⟨"10:00:01", 2000⟩
    (by decide) (by decide)
  exact ⟨by decide, by decide, h.1, h.2.1⟩

/-- C5: for a known session, a rename request whose stripped name is empty,
longer than 20 characters, or equal (case-sensitively) to the current
username of some other active session is rejected: the whole state (registry
and history) is left unchanged and the only emission is a `username_error`
with a reason string addressed to the requester's room. -/
theorem rename_rejected (st : ServerState) (sid : String) (c : Session)
    (data : Option String) (env : Env)
    (hc : lookupKey sid st.clients = some c)
    (hbad : strip (data.getD "") = "" ∨ 20 < (strip (data.getD "")).length ∨
      ∃ p ∈ st.clients, p.1 ≠ sid ∧ p.2.username = strip (data.getD "")) :
    set_username st sid data env =
      (st, [⟨Target.room sid, Payload.username_error "Invalid username or already taken"⟩]) ∧
    ∀ conn : List String, ∀ r ∈ recipients conn (Target.room sid), r = sid := by
  have hmem : strip (data.getD "") = "" ∨ 20 < (strip (data.getD "")).length ∨
      strip (data.getD "") ∈
        (st.clients.filter (fun p => p.1 ≠ sid)).map (fun p => p.2.username) := by
    rcases hbad with h | h | ⟨p, hp, hne, hu⟩
    · exact Or.inl h
    · exact Or.inr (Or.inl h)
    · refine Or.inr (Or.inr ?_)
      rw [List.mem_map]
      refine ⟨p, ?_, hu⟩
      rw [List.mem_filter]
      exact ⟨hp, by simpa using hne⟩
  simp only [set_username, hc]
  rw [if_pos hmem]
  exact ⟨rfl, fun conn r hr => recipients_room_eq conn sid r hr⟩

/-- Witness for C5: a rename to the other session's current username is
rejected, at a concrete two-session state. -/
theorem rename_rejected_witness :
    lookupKey "abcd" (run initState [(Event.connect "abcd" "ip1", ⟨"10:00:00", 1000⟩),
        (Event.connect "wxyz" "ip2", ⟨"10:00:01", 1500⟩)]).clients =
      some ⟨"Guest_abcd", 1000, "ip1"⟩ ∧
    set_username (run initState [(Event.connect "abcd" "ip1", ⟨"10:00:00", 1000⟩),
        (Event.connect "wxyz" "ip2", ⟨"10:00:01", 1500⟩)])
      "abcd" (some "Guest_wxyz") ⟨"10:00:02", 2000⟩ =
      (run initState [(Event.connect "abcd" "ip1", ⟨"10:00:00", 1000⟩),
        (Event.connect "wxyz" "ip2", ⟨"10:00:01", 1500⟩)],
       [⟨Target.room "abcd", Payload.username_error "Invalid username or already taken"⟩]) := by
  have h := rename_rejected (run initState [(Event.connect "abcd" "ip1", ⟨"10:00:00", 1000⟩),
      (Event.connect "wxyz" "ip2", ⟨"10:00:01", 1500⟩)])
    "abcd" ⟨"Guest_abcd", 1000, "ip1"⟩ (some "Guest_wxyz") ⟨"10:00:02", 2000⟩
    (by decide)
    (Or.inr (Or.inr ⟨("wxyz", ⟨"Guest_wxyz", 1500, "ip2"⟩), by decide, by decide, by decide⟩))
  exact ⟨by decide, h.1⟩

/-- C6: a disconnect for a registered session removes it from the registry and
then emits, as plain broadcasts, a system "left" notice naming the removed
username followed by the user list of exactly the remaining sessions; since
the departing session's transport connection is already closed when the
disconnect event is delivered, every remaining connected session receives
both emissions and the departed one receives neither.  A disconnect for an
unknown session id is a complete no-op. -/
theorem disconnect_spec (st : ServerState) (sid : String) (env : Env) :
    (lookupKey sid st.clients = none → disconnect st sid env = (st, [])) ∧
    (∀ c, lookupKey sid st.clients = some c →
      (disconnect st sid env).1.clients = eraseKey sid st.clients ∧
      (disconnect st sid env).1.chat_history = st.chat_history ∧
      (disconnect st sid env).2 =
        [⟨Target.all, Payload.message (leave_msg c.username sid env)⟩,
         ⟨Target.all, Payload.user_list (user_list_users (eraseKey sid st.clients))⟩] ∧
      (leave_msg c.username sid env).type = "system" ∧
      (leave_msg c.username sid env).text = c.username ++ " has left the chat" ∧
      ∀ conn : List String, sid ∉ conn →
        ∀ e ∈ (disconnect st sid env).2,
          recipients conn e.target = conn ∧ sid ∉ recipients conn e.target) := by
  constructor
  · intro h
    unfold disconnect
    rw [h]
  · intro c h
    unfold disconnect
    rw [h]
    refine ⟨rfl, rfl, rfl, rfl, rfl, ?_⟩
    intro conn hc e he
    simp only [List.mem_cons, List.mem_singleton, List.not_mem_nil, or_false] at he
    rcases he with rfl | rfl
    · exact ⟨rfl, hc⟩
    · exact ⟨rfl, hc⟩

/-- Witness for C6: a registered session is removed with the two broadcasts,
and a disconnect for an unknown id is a no-op, at concrete states. -/
theorem disconnect_spec_witness :
    (lookupKey "zzzz" (run initState [(Event.connect "abcd" "ip", ⟨"10:00:00", 1000⟩)]).clients =
       none ∧
     disconnect (run initState [(Event.connect "abcd" "ip", ⟨"10:00:00", 1000⟩)]) "zzzz"
         ⟨"10:00:05", 5000⟩ =
       (run initState [(Event.connect "abcd" "ip", ⟨"10:00:00", 1000⟩)], [])) ∧
    lookupKey "abcd" (run initState [(Event.connect "abcd" "ip", ⟨"10:00:00", 1000⟩)]).clients =
      some ⟨"Guest_abcd", 1000, "ip"⟩ ∧
    (disconnect (run initState [(Event.connect "abcd" "ip", ⟨"10:00:00", 1000⟩)]) "abcd"
        ⟨"10:00:05", 5000⟩).1.clients =
      eraseKey "abcd" (run initState [(Event.connect "abcd" "ip", ⟨"10:00:00", 1000⟩)]).clients ∧
    (disconnect (run initState [(Event.connect "abcd" "ip", ⟨"10:00:00", 1000⟩)]) "abcd"
        ⟨"10:00:05", 5000⟩).2 =
      [⟨Target.all, Payload.message (leave_msg "Guest_abcd" "abcd" ⟨"10:00:05", 5000⟩)⟩,
       ⟨Target.all, Payload.user_list (user_list_users (eraseKey "abcd"
         (run initState [(Event.connect "abcd" "ip", ⟨"10:00:00", 1000⟩)]).clients))⟩] := by
  have hknown := (disconnect_spec (run initState [(Event.connect "abcd" "ip", ⟨"10:00:00", 1000⟩)])
    "abcd" ⟨"10:00:05", 5000⟩).2 ⟨"Guest_abcd", 1000, "ip"⟩ (by decide)
  have hunknown := (disconnect_spec (run initState [(Event.connect "abcd" "ip", ⟨"10:00:00", 1000⟩)])
    "zzzz" ⟨"10:00:05", 5000⟩).1 (by decide)
  exact ⟨⟨by decide, hunknown⟩, by decide, hknown.1, hknown.2.2.1⟩

/-- C7 counterexample: in the reachable state where two sessions ("aaaa1",
"aaaa2") both carry the default username "Guest_aaaa", a request by "aaaa1"
to rename to its own current username (non-empty, 10 ≤ 20 characters) is
rejected with a `username_error` rather than succeeding, because the
duplicate check finds the name on the other session. -/
theorem rename_to_self_rejected_on_collision :
    lookupKey "aaaa1" (run initState [(Event.connect "aaaa1" "ip1", ⟨"00:00:00", 0⟩),
        (Event.connect "aaaa2" "ip2", ⟨"00:00:00", 1⟩)]).clients =
      some ⟨"Guest_aaaa", 0, "ip1"⟩ ∧
    strip ((some "Guest_aaaa").getD "") = "Guest_aaaa" ∧
    ("Guest_aaaa" : String) ≠ "" ∧
    ("Guest_aaaa" : String).length ≤ 20 ∧
    (set_username (run initState [(Event.connect "aaaa1" "ip1", ⟨"00:00:00", 0⟩),
        (Event.connect "aaaa2" "ip2", ⟨"00:00:00", 1⟩)])
      "aaaa1" (some "Guest_aaaa") ⟨"00:00:01", 2⟩).2 =
      [⟨Target.room "aaaa1", Payload.username_error "Invalid username or already taken"⟩] := by
  exact ⟨by decide, by decide, by decide, by decide, rfl⟩

/-- C7 (amended): for a known session whose stripped requested name equals
its own current username (non-empty, at most 20 characters), the rename
succeeds rather than being rejected — the duplicate check compares only
against other sessions' usernames — provided no other active session
currently holds that same username; the registry is unchanged and no
`username_error` is emitted. -/
theorem rename_to_self_succeeds (st : ServerState) (sid : String) (c : Session)
    (data : Option String) (env : Env)
    (hc : lookupKey sid st.clients = some c)
    (hn : strip (data.getD "") = c.username)
    (hne : c.username ≠ "")
    (hlen : c.username.length ≤ 20)
    (hother : ∀ p ∈ st.clients, p.1 ≠ sid → p.2.username ≠ c.username) :
    (set_username st sid data env).1 = st ∧
    (set_username st sid data env).2 =
      [⟨Target.all, Payload.message (change_msg c.username c.username sid env)⟩,
       ⟨Target.room sid, Payload.username_changed c.username⟩,
       emit_user_list st.clients] ∧
    ∀ e ∈ (set_username st sid data env).2,
      ∀ err, e.payload ≠ Payload.username_error err := by
  have hcond : ¬ (strip (data.getD "") = "" ∨ 20 < (strip (data.getD "")).length ∨
      strip (data.getD "") ∈
        (st.clients.filter (fun p => p.1 ≠ sid)).map (fun p => p.2.username)) := by
    rw [hn]
    push_neg
    refine ⟨hne, by omega, ?_⟩
    intro hmem
    obtain ⟨p, hpf, hu⟩ := List.mem_map.1 hmem
    rw [List.mem_filter] at hpf
    exact hother p hpf.1 (by simpa using hpf.2) hu
  have hupd : upsert sid { c with username := strip (data.getD "") } st.clients = st.clients := by
    rw [hn]
    exact upsert_lookup_self sid c st.clients hc
  have h2 : (set_username st sid data env).2 =
      [⟨Target.all, Payload.message (change_msg c.username c.username sid env)⟩,
       ⟨Target.room sid, Payload.username_changed c.username⟩,
       emit_user_list st.clients] := by
    simp only [set_username, hc]
    rw [if_neg hcond, hupd, hn]
  refine ⟨?_, h2, ?_⟩
  · simp only [set_username, hc]
    rw [if_neg hcond, hupd]
  · intro e he err
    rw [h2] at he
    simp only [List.mem_cons, List.not_mem_nil, or_false] at he
    rcases he with rfl | rfl | rfl
    · simp
    · simp
    · simp [emit_user_list]

/-- Witness for C7 (amended): a single session renaming to its own current
username succeeds, at a concrete state. -/
theorem rename_to_self_succeeds_witness :
    lookupKey "abcd" (run initState [(Event.connect "abcd" "ip", ⟨"10:00:00", 1000⟩)]).clients =
      some ⟨"Guest_abcd", 1000, "ip"⟩ ∧
    strip ((some "Guest_abcd").getD "") = "Guest_abcd" ∧
    (set_username (run initState [(Event.connect "abcd" "ip", ⟨"10:00:00", 1000⟩)])
        "abcd" (some "Guest_abcd") ⟨"10:00:01", 2000⟩).1 =
      run initState [(Event.connect "abcd" "ip", ⟨"10:00:00", 1000⟩)] ∧
    (set_username (run initState [(Event.connect "abcd" "ip", ⟨"10:00:00", 1000⟩)])
        "abcd" (some "Guest_abcd") ⟨"10:00:01", 2000⟩).2 =
      [⟨Target.all, Payload.message (change_msg "Guest_abcd" "Guest_abcd" "abcd"
          ⟨"10:00:01", 2000⟩)⟩,
       ⟨Target.room "abcd", Payload.username_changed "Guest_abcd"⟩,
       emit_user_list (run initState [(Event.connect "abcd" "ip", ⟨"10:00:00", 1000⟩)]).clients] := by
  have h := rename_to_self_succeeds (run initState [(Event.connect "abcd" "ip", ⟨"10:00:00", 1000⟩)])
    "abcd" ⟨"Guest_abcd", 1000, "ip"⟩ (some "Guest_abcd") ⟨"10:00:01", 2000⟩
    (by decide) (by decide) (by decide) (by decide) (by decide)
  exact ⟨by decide, by decide, h.1, h.2.1⟩

/-- C8 counterexample: with session id "abcd" already registered (and renamed
to "Bob"), a second connect for the same id does not fail and is not treated
as a fatal invariant violation: it silently replaces the existing session
with a fresh guest session and emits the ordinary welcome / join / user-list
sequence. -/
theorem connect_overwrites_existing :
    lookupKey "abcd" (run initState [(Event.connect "abcd" "ip1", ⟨"09:00:00", 1000⟩),
        (Event.rename "abcd" (some "Bob"), ⟨"09:00:01", 2000⟩)]).clients =
      some ⟨"Bob", 1000, "ip1"⟩ ∧
    (connect (run initState [(Event.connect "abcd" "ip1", ⟨"09:00:00", 1000⟩),
        (Event.rename "abcd" (some "Bob"), ⟨"09:00:01", 2000⟩)]) "abcd" "ip2"
      ⟨"09:00:02", 3000⟩).1.clients = [("abcd", ⟨"Guest_abcd", 3000, "ip2"⟩)] ∧
    (connect (run initState [(Event.connect "abcd" "ip1", ⟨"09:00:00", 1000⟩),
        (Event.rename "abcd" (some "Bob"), ⟨"09:00:01", 2000⟩)]) "abcd" "ip2"
      ⟨"09:00:02", 3000⟩).2 =
      [⟨Target.room "abcd", Payload.message (welcome_msg "abcd" ⟨"09:00:02", 3000⟩)⟩,
       ⟨Target.allExcept "abcd", Payload.message (join_msg "abcd" ⟨"09:00:02", 3000⟩)⟩,
       ⟨Target.all, Payload.user_list [("abcd", "Guest_abcd")]⟩] := by
  exact ⟨by decide, by decide, rfl⟩

/-- C8 (amended): the registry create performed by connect assigns the
default guest username derived from the id and never fails: afterwards the
id maps to the fresh guest session whether or not it was present before (an
existing session under the same id is silently replaced rather than
rejected), and the binding of every other id is unchanged. -/
theorem create_never_fails (st : ServerState) (sid ip : String) (env : Env) :
    lookupKey sid (connect st sid ip env).1.clients =
      some ⟨guestName sid, env.time_ms, ip⟩ ∧
    ∀ k, k ≠ sid → lookupKey k (connect st sid ip env).1.clients = lookupKey k st.clients := by
  constructor
  · exact lookupKey_upsert_self sid _ st.clients
  · intro k hk
    exact lookupKey_upsert_ne sid _ st.clients k hk

/-- Witness for C8 (amended) at a concrete connect, checking the fresh
binding and an unrelated key. -/
theorem create_never_fails_witness :
    (("wxyz" : String) ≠ "abcd") ∧
    lookupKey "abcd" (connect initState "abcd" "ip" ⟨"09:00:00", 7⟩).1.clients =
      some ⟨guestName "abcd", 7, "ip"⟩ ∧
    lookupKey "wxyz" (connect initState "abcd" "ip" ⟨"09:00:00", 7⟩).1.clients =
      lookupKey "wxyz" initState.clients :=
  ⟨by decide, (create_never_fails initState "abcd" "ip" ⟨"09:00:00", 7⟩).1,
   (create_never_fails initState "abcd" "ip" ⟨"09:00:00", 7⟩).2 "wxyz" (by decide)⟩

/-- C9: two distinct chat messages posted by the same session within the same
millisecond (time_ms = 2000 for both) are broadcast as two distinct events
that carry the identical id "msg_2000_abcd": event ids are not unique within
a process lifetime. -/
theorem duplicate_message_ids :
    (chat_message (run initState [(Event.connect "abcd" "ip", ⟨"10:00:00", 1000⟩)])
        "abcd" (some "hi") ⟨"10:00:01", 2000⟩).2 =
      [⟨Target.all, Payload.message (chat_msg "Guest_abcd" "hi" "abcd" ⟨"10:00:01", 2000⟩)⟩] ∧
    (chat_message (chat_message (run initState [(Event.connect "abcd" "ip", ⟨"10:00:00", 1000⟩)])
          "abcd" (some "hi") ⟨"10:00:01", 2000⟩).1
        "abcd" (some "yo") ⟨"10:00:01", 2000⟩).2 =
      [⟨Target.all, Payload.message (chat_msg "Guest_abcd" "yo" "abcd" ⟨"10:00:01", 2000⟩)⟩] ∧
    chat_msg "Guest_abcd" "hi" "abcd" ⟨"10:00:01", 2000⟩ ≠
      chat_msg "Guest_abcd" "yo" "abcd" ⟨"10:00:01", 2000⟩ ∧
    (chat_msg "Guest_abcd" "hi" "abcd" ⟨"10:00:01", 2000⟩).id =
      (chat_msg "Guest_abcd" "yo" "abcd" ⟨"10:00:01", 2000⟩).id := by
  exact ⟨rfl, rfl, by decide, rfl⟩

/-- C10: for a known session, a chat_message payload whose text field is
missing or strips to empty is silently dropped (state unchanged, nothing
emitted), whereas a set_username payload whose username field is missing or
strips to empty triggers a `username_error` event to the requester. -/
theorem empty_text_vs_empty_username (st : ServerState) (sid : String) (c : Session)
    (d1 d2 : Option String) (env : Env)
    (hc : lookupKey sid st.clients = some c)
    (h1 : strip (d1.getD "") = "")
    (h2 : strip (d2.getD "") = "") :
    chat_message st sid d1 env = (st, []) ∧
    set_username st sid d2 env =
      (st, [⟨Target.room sid, Payload.username_error "Invalid username or already taken"⟩]) := by
  constructor
  · simp only [chat_message, hc]
    rw [if_pos h1]
  · simp only [set_username, hc]
    rw [if_pos (Or.inl h2)]

/-- Witness for C10: a missing text field and a whitespace-only username, at
a concrete one-session state. -/
theorem empty_text_vs_empty_username_witness :
    lookupKey "abcd" (run initState [(Event.connect "abcd" "ip", ⟨"10:00:00", 1000⟩)]).clients =
      some ⟨"Guest_abcd", 1000, "ip"⟩ ∧
    strip ((none : Option String).getD "") = "" ∧
    strip ((some "   ").getD "") = "" ∧
    chat_message (run initState [(Event.connect "abcd" "ip", ⟨"10:00:00", 1000⟩)])
        "abcd" none ⟨"10:00:01", 2000⟩ =
      (run initState [(Event.connect "abcd" "ip", ⟨"10:00:00", 1000⟩)], []) ∧
    set_username (run initState [(Event.connect "abcd" "ip", ⟨"10:00:00", 1000⟩)])
        "abcd" (some "   ") ⟨"10:00:01", 2000⟩ =
      (run initState [(Event.connect "abcd" "ip", ⟨"10:00:00", 1000⟩)],
       [⟨Target.room "abcd", Payload.username_error "Invalid username or already taken"⟩]) := by
  have h := empty_text_vs_empty_username
    (run initState [(Event.connect "abcd" "ip", ⟨"10:00:00", 1000⟩)])
    "abcd" ⟨"Guest_abcd", 1000, "ip"⟩ none (some "   ") ⟨"10:00:01", 2000⟩
    (by decide) (by decide) (by decide)
  exact ⟨by decide, by decide, by decide, h.1, h.2⟩

end IpChat
